import Mathlib

/-!
Shallow embedding of the distributed DQN worker
(`rl_algorithms/dqn/worker.py` and
`rl_algorithms/common/distributed/abstract/worker.py`).

States, actions and environment internal states are modelled as `ℤ`;
rewards, epsilon values, discount factors and priorities as `ℚ`.
The two unseeded global random streams the worker consumes
(`np.random.random()` and `env.action_space.sample()`) are modelled as
explicit streams `ℕ → ℚ` / `ℕ → ℤ` together with a per-worker draw
counter, and the policy network's arg-max is an opaque function `ℤ → ℤ`.
Fallible / possibly non-terminating loops are fueled and return `Option`.
-/

namespace RLAlgorithms

/-- The hyper-parameters `DQNWorker.__init__` reads from `hyper_params`. -/
structure HyperParams where
  max_epsilon : ℚ
  min_epsilon : ℚ
  epsilon_decay : ℚ
  n_step : ℕ
  gamma : ℚ
  local_buffer_max_size : ℕ
  per_eps : ℚ
deriving DecidableEq, Repr

/-- One environment transition `(state, action, reward, next_state, done)`
as built in `DQNWorker.collect_data`. -/
structure Transition where
  state : ℤ
  action : ℤ
  reward : ℚ
  next_state : ℤ
  done : Bool
deriving DecidableEq, Repr

instance : Inhabited Transition := ⟨⟨0, 0, 0, 0, false⟩⟩

/-- The Local Buffer `local_memory`: a dict of five growable lists,
`dones` holding `int(done)` as in the source. -/
structure LocalMemory where
  states : List ℤ
  actions : List ℤ
  rewards : List ℚ
  next_states : List ℤ
  dones : List ℕ
deriving DecidableEq, Repr

/-- `dict(states=[], actions=[], rewards=[], next_states=[], dones=[])`. -/
def LocalMemory.empty : LocalMemory := ⟨[], [], [], [], []⟩

/-- The `for entry, keys in zip(transition, local_memory_keys)` append loop:
appends the five fields of one transition to the five buffer lists. -/
def appendTransition (m : LocalMemory) (t : Transition) : LocalMemory :=
  { states := m.states ++ [t.state]
    actions := m.actions ++ [t.action]
    rewards := m.rewards ++ [t.reward]
    next_states := m.next_states ++ [t.next_state]
    dones := m.dones ++ [if t.done then 1 else 0] }

/-- `deque(maxlen=n).append t`: keeps the most recent `n` elements,
evicting from the front when full. -/
def dequeAppend (n : ℕ) (q : List Transition) (t : Transition) : List Transition :=
  (q ++ [t]).drop (q.length + 1 - n)

/-- Discounted cumulative reward of a window, head first:
`r0 + gamma * (r1 + gamma * (...))`. -/
def nstepReward (gamma : ℚ) : List Transition → ℚ
  | [] => 0
  | t :: rest => t.reward + gamma * nstepReward gamma rest

/-- Modelled from the spec: `preprocess_nstep` is invoked in
`DQNWorker.collect_data` but its definition is not among the provided
sources. Per spec 4.3 the fold's cumulative reward is the n-step
discounted sum, `next_state` is taken from the last window element, and
`done` is the OR of all window members' `done` flags; `state` and
`action` come from the first window element. -/
def preprocess_nstep (gamma : ℚ) (q : List Transition) : Transition :=
  { state := q.headI.state
    action := q.headI.action
    reward := nstepReward gamma q
    next_state := (q.getLast?.getD default).next_state
    done := q.any (fun t => t.done) }

/-- The per-transition body of `collect_data`: with `n_step > 1` push into
the n-step deque and fold when it holds exactly `n_step` elements,
otherwise append the raw transition directly. Returns the updated buffer
and window. -/
def processTransition (hp : HyperParams) (mem : LocalMemory) (q : List Transition)
    (t : Transition) : LocalMemory × List Transition :=
  if 1 < hp.n_step then
    if hp.n_step = (dequeAppend hp.n_step q t).length then
      (appendTransition mem (preprocess_nstep hp.gamma (dequeAppend hp.n_step q t)),
        dequeAppend hp.n_step q t)
    else (mem, dequeAppend hp.n_step q t)
  else (appendTransition mem t, q)

/-- Mutable per-worker state read and written by `select_action`:
the current epsilon and the positions in the two global random streams
(`np.random.random()` draws and `action_space.sample()` draws). -/
structure WorkerState where
  epsilon : ℚ
  npIdx : ℕ
  spIdx : ℕ
deriving DecidableEq, Repr

/-- The unconditional epsilon update at the end of `select_action`:
`epsilon = max(epsilon - (max_epsilon - min_epsilon) * epsilon_decay, min_epsilon)`. -/
def decayEpsilon (hp : HyperParams) (eps : ℚ) : ℚ :=
  max (eps - (hp.max_epsilon - hp.min_epsilon) * hp.epsilon_decay) hp.min_epsilon

/-- `decayEpsilon` iterated over successive `select_action` calls. -/
def decayIter (hp : HyperParams) (eps : ℚ) : ℕ → ℚ
  | 0 => eps
  | n + 1 => decayEpsilon hp (decayIter hp eps n)

/-- `DQNWorker.select_action`: with `epsilon > np.random.random()` sample a
random action from the action space, otherwise take the network arg-max;
then decay epsilon unconditionally. -/
def select_action (hp : HyperParams) (npStream : ℕ → ℚ) (spStream : ℕ → ℤ)
    (policy : ℤ → ℤ) (w : WorkerState) (state : ℤ) : ℤ × WorkerState :=
  let explore := npStream w.npIdx < w.epsilon
  let a := if explore then spStream w.spIdx else policy state
  (a, { epsilon := decayEpsilon hp w.epsilon
        npIdx := w.npIdx + 1
        spIdx := if explore then w.spIdx + 1 else w.spIdx })

/-- A seeded environment: `reset` and `step` act on an internal state `ℤ`
(the environment after `env.seed(env_seed)` is deterministic). -/
structure Env where
  reset : ℤ → ℤ × ℤ
  step : ℤ → ℤ → ℤ × ℚ × Bool × ℤ

/-- The full mutable state threaded through `collect_data`'s loops. -/
structure LoopState where
  w : WorkerState
  envState : ℤ
  mem : LocalMemory
  queue : List Transition
deriving Repr

/-- The inner `while not done` loop of `collect_data`, fueled:
select an action, step the environment, process the transition, move to
`next_state`; stop when `done`. -/
def runEpisodeAux (hp : HyperParams) (E : Env) (npStream : ℕ → ℚ) (spStream : ℕ → ℤ)
    (policy : ℤ → ℤ) : ℕ → LoopState → ℤ → Option LoopState
  | 0, _, _ => none
  | fuel + 1, st, obs =>
    let aw := select_action hp npStream spStream policy st.w obs
    let out := E.step st.envState aw.1
    let t : Transition := ⟨obs, aw.1, out.2.1, out.1, out.2.2.1⟩
    let mq := processTransition hp st.mem st.queue t
    let st2 : LoopState := ⟨aw.2, out.2.2.2, mq.1, mq.2⟩
    if out.2.2.1 then some st2
    else runEpisodeAux hp E npStream spStream policy fuel st2 out.1

/-- The outer `while len(local_memory["states"]) < local_buffer_max_size`
loop of `collect_data`, fueled by a number of episodes: the threshold is
checked only before starting a new episode, and the n-step window is NOT
reset between episodes. -/
def collectAux (hp : HyperParams) (E : Env) (npStream : ℕ → ℚ) (spStream : ℕ → ℤ)
    (policy : ℤ → ℤ) (stepFuel : ℕ) : ℕ → LoopState → Option LocalMemory
  | 0, _ => none
  | epFuel + 1, st =>
    if hp.local_buffer_max_size ≤ st.mem.states.length then some st.mem
    else
      let oe := E.reset st.envState
      match runEpisodeAux hp E npStream spStream policy stepFuel
          ⟨st.w, oe.2, st.mem, st.queue⟩ oe.1 with
      | none => none
      | some st2 => collectAux hp E npStream spStream policy stepFuel epFuel st2

/-- `DQNWorker.collect_data`: starts from an empty Local Buffer and an
empty n-step window, runs whole episodes until the buffer holds at least
`local_buffer_max_size` entries, and returns the buffer. -/
def collect_data (hp : HyperParams) (E : Env) (npStream : ℕ → ℚ) (spStream : ℕ → ℤ)
    (policy : ℤ → ℤ) (w0 : WorkerState) (envState0 : ℤ)
    (stepFuel epFuel : ℕ) : Option LocalMemory :=
  collectAux hp E npStream spStream policy stepFuel epFuel
    ⟨w0, envState0, LocalMemory.empty, []⟩

/-- Processing a flat stream of transitions through the aggregator,
threading buffer and window; the per-transition action is exactly
`processTransition`. -/
def processList (hp : HyperParams) : LocalMemory × List Transition → List Transition →
    LocalMemory × List Transition
  | acc, [] => acc
  | acc, t :: ts => processList hp (processTransition hp acc.1 acc.2 t) ts

/-- `DQNWorker.compute_priorities`: the pluggable loss function produces an
element-wise loss vector for the buffer, and each priority is
`loss_element + per_eps`. -/
def compute_priorities (lossFn : LocalMemory → List ℚ) (per_eps : ℚ)
    (mem : LocalMemory) : List ℚ :=
  (lossFn mem).map (fun x => x + per_eps)

/-- A network parameter tensor: an object identity and its content. -/
structure ParamTensor where
  id : ℕ
  data : List ℚ
deriving DecidableEq, Repr

instance : Inhabited ParamTensor := ⟨⟨0, []⟩⟩

/-- `Worker._synchronize`: `for param, new_param in zip(network.parameters(),
new_params): param.data.copy_(new_param)` — in-place copy of content into
each zipped pair; `zip` truncates at the shorter sequence and the loop
completes silently, leaving any remaining parameters untouched. -/
def _synchronize (params : List ParamTensor) (new_params : List (List ℚ)) :
    List ParamTensor :=
  (params.zip new_params).map (fun pn => { pn.1 with data := pn.2 })
    ++ params.drop new_params.length

/-- The lock-step invariant of the Local Buffer: all five field sequences
have identical length. -/
def LockStep (m : LocalMemory) : Prop :=
  m.actions.length = m.states.length ∧ m.rewards.length = m.states.length ∧
  m.next_states.length = m.states.length ∧ m.dones.length = m.states.length

instance (m : LocalMemory) : Decidable (LockStep m) := by
  unfold LockStep; infer_instance

/-- All five Local Buffer fields grew by exactly one entry from `m` to `m2`. -/
def GrowsByOne (m m2 : LocalMemory) : Prop :=
  m2.states.length = m.states.length + 1 ∧
  m2.actions.length = m.actions.length + 1 ∧
  m2.rewards.length = m.rewards.length + 1 ∧
  m2.next_states.length = m.next_states.length + 1 ∧
  m2.dones.length = m.dones.length + 1

instance (m m2 : LocalMemory) : Decidable (GrowsByOne m m2) := by
  unfold GrowsByOne; infer_instance

/-- Hyper-parameters for the threshold scenario: `local_buffer_max_size = 100`
with 1-step transitions and exploitation only. -/
def hp100 : HyperParams :=
  { max_epsilon := 0, min_epsilon := 0, epsilon_decay := 0, n_step := 1,
    gamma := 99 / 100, local_buffer_max_size := 100, per_eps := 1 / 1000000 }

/-- A deterministic environment whose every episode lasts exactly three
steps: the internal state counts steps, `reset` restarts the counter. -/
def demoEnv : Env :=
  { reset := fun _ => (0, 0)
    step := fun z _ => (z + 1, 1, decide (3 ≤ z + 1), z + 1) }

/-- Hyper-parameters for the rank-determinism scenario: one-entry buffer,
1-step transitions, initial epsilon `max_epsilon = 1` (always explore). -/
def hpC9 : HyperParams :=
  { max_epsilon := 1, min_epsilon := 0, epsilon_decay := 1, n_step := 1,
    gamma := 0, local_buffer_max_size := 1, per_eps := 1 }

/-- A deterministic environment whose every episode lasts one step. -/
def envC9 : Env :=
  { reset := fun _ => (0, 0)
    step := fun z _ => (z + 1, 1, true, z + 1) }

/-- Hyper-parameters for the cross-episode n-step scenario: window size 3,
two-entry buffer, exploitation only. -/
def hpC10 : HyperParams :=
  { max_epsilon := 0, min_epsilon := 0, epsilon_decay := 0, n_step := 3,
    gamma := 1 / 2, local_buffer_max_size := 2, per_eps := 1 }

/-- A deterministic environment with two-step episodes whose observations
encode the episode index: episode `k` visits `100 * k`, `100 * k + 1`,
`100 * k + 2`, so buffer entries reveal which episode each member of an
n-step window came from. -/
def envC10 : Env :=
  { reset := fun z => (100 * (z / 100 + 1), 100 * (z / 100 + 1))
    step := fun z _ => (z + 1, 1, decide (2 ≤ z % 100 + 1), z + 1) }

/-! ## Epsilon decay -/

theorem decayEpsilon_le_self (hp : HyperParams) (e : ℚ) (hdecay : 0 ≤ hp.epsilon_decay)
    (hminmax : hp.min_epsilon ≤ hp.max_epsilon) (he : hp.min_epsilon ≤ e) :
    decayEpsilon hp e ≤ e := by
  unfold decayEpsilon
  have hnn : 0 ≤ (hp.max_epsilon - hp.min_epsilon) * hp.epsilon_decay :=
    mul_nonneg (by linarith) hdecay
  exact max_le (by linarith) he

theorem min_epsilon_le_decayEpsilon (hp : HyperParams) (e : ℚ) :
    hp.min_epsilon ≤ decayEpsilon hp e :=
  le_max_right _ _

theorem min_epsilon_le_decayIter (hp : HyperParams) (e : ℚ)
    (he : hp.min_epsilon ≤ e) : ∀ n : ℕ, hp.min_epsilon ≤ decayIter hp e n
  | 0 => he
  | _ + 1 => min_epsilon_le_decayEpsilon hp _

theorem select_action_epsilon_eq (hp : HyperParams) (npStream : ℕ → ℚ)
    (spStream : ℕ → ℤ) (policy : ℤ → ℤ) (w : WorkerState) (state : ℤ) :
    (select_action hp npStream spStream policy w state).2.epsilon
      = decayEpsilon hp w.epsilon := rfl

/-- C1: after every `select_action` call, regardless of the branch taken,
`epsilon` equals `max(epsilon - (max_epsilon - min_epsilon) * epsilon_decay,
min_epsilon)`; given non-negative decay, `min_epsilon ≤ max_epsilon` and the
running invariant `min_epsilon ≤ epsilon`, the new epsilon is `≤` the old
one and `≥ min_epsilon`, and across any number of successive calls the
iterated epsilon sequence is monotone non-increasing and bounded below by
`min_epsilon`. -/
theorem select_action_epsilon_contract (hp : HyperParams) (npStream : ℕ → ℚ)
    (spStream : ℕ → ℤ) (policy : ℤ → ℤ) (w : WorkerState) (state : ℤ) (n : ℕ)
    (hdecay : 0 ≤ hp.epsilon_decay) (hminmax : hp.min_epsilon ≤ hp.max_epsilon)
    (he : hp.min_epsilon ≤ w.epsilon) :
    (select_action hp npStream spStream policy w state).2.epsilon
        = max (w.epsilon - (hp.max_epsilon - hp.min_epsilon) * hp.epsilon_decay)
            hp.min_epsilon
      ∧ (select_action hp npStream spStream policy w state).2.epsilon ≤ w.epsilon
      ∧ hp.min_epsilon ≤ (select_action hp npStream spStream policy w state).2.epsilon
      ∧ decayIter hp w.epsilon (n + 1) ≤ decayIter hp w.epsilon n
      ∧ hp.min_epsilon ≤ decayIter hp w.epsilon (n + 1) := by
  refine ⟨rfl, ?_, ?_, ?_, ?_⟩
  · exact decayEpsilon_le_self hp w.epsilon hdecay hminmax he
  · exact min_epsilon_le_decayEpsilon hp w.epsilon
  · exact decayEpsilon_le_self hp _ hdecay hminmax (min_epsilon_le_decayIter hp _ he n)
  · exact min_epsilon_le_decayEpsilon hp _

/-- Witness for C1 at a concrete worker state and hyper-parameters. -/
theorem select_action_epsilon_contract_witness :
    ((0 : ℚ) ≤ (1 : ℚ)) ∧
    ((select_action ⟨1, 0, 1, 1, 0, 100, 0⟩ (fun _ => 0) (fun _ => 7) (fun _ => 3)
        ⟨1, 0, 0⟩ 0).2.epsilon = max ((1 : ℚ) - (1 - 0) * 1) 0
      ∧ (select_action ⟨1, 0, 1, 1, 0, 100, 0⟩ (fun _ => 0) (fun _ => 7) (fun _ => 3)
          ⟨1, 0, 0⟩ 0).2.epsilon ≤ 1
      ∧ (0 : ℚ) ≤ (select_action ⟨1, 0, 1, 1, 0, 100, 0⟩ (fun _ => 0) (fun _ => 7)
          (fun _ => 3) ⟨1, 0, 0⟩ 0).2.epsilon
      ∧ decayIter ⟨1, 0, 1, 1, 0, 100, 0⟩ 1 (2 + 1) ≤ decayIter ⟨1, 0, 1, 1, 0, 100, 0⟩ 1 2
      ∧ (0 : ℚ) ≤ decayIter ⟨1, 0, 1, 1, 0, 100, 0⟩ 1 (2 + 1)) :=
  ⟨by decide,
   select_action_epsilon_contract ⟨1, 0, 1, 1, 0, 100, 0⟩ (fun _ => 0) (fun _ => 7)
     (fun _ => 3) ⟨1, 0, 0⟩ 0 2 (by decide) (by decide) (by decide)⟩

/-! ## Lock-step invariant -/

theorem lockStep_empty : LockStep LocalMemory.empty := by decide

theorem appendTransition_growsByOne (m : LocalMemory) (t : Transition) :
    GrowsByOne m (appendTransition m t) := by
  unfold GrowsByOne appendTransition
  simp

theorem lockStep_appendTransition (m : LocalMemory) (t : Transition)
    (h : LockStep m) : LockStep (appendTransition m t) := by
  obtain ⟨h1, h2, h3, h4⟩ := h
  unfold LockStep appendTransition
  simp [h1, h2, h3, h4]

theorem processTransition_cases (hp : HyperParams) (mem : LocalMemory)
    (q : List Transition) (t : Transition) :
    (processTransition hp mem q t).1 = mem ∨
    ∃ t2, (processTransition hp mem q t).1 = appendTransition mem t2 := by
  unfold processTransition
  split
  · split
    · exact Or.inr ⟨_, rfl⟩
    · exact Or.inl rfl
  · exact Or.inr ⟨_, rfl⟩

theorem lockStep_processTransition (hp : HyperParams) (mem : LocalMemory)
    (q : List Transition) (t : Transition) (h : LockStep mem) :
    LockStep (processTransition hp mem q t).1 := by
  rcases processTransition_cases hp mem q t with heq | ⟨t2, heq⟩
  · rw [heq]; exact h
  · rw [heq]; exact lockStep_appendTransition mem t2 h

theorem runEpisodeAux_lockstep (hp : HyperParams) (E : Env) (npStream : ℕ → ℚ)
    (spStream : ℕ → ℤ) (policy : ℤ → ℤ) :
    ∀ (fuel : ℕ) (st : LoopState) (obs : ℤ) (st2 : LoopState),
      runEpisodeAux hp E npStream spStream policy fuel st obs = some st2 →
      LockStep st.mem → LockStep st2.mem
  | 0, st, obs, st2, h, _ => by simp [runEpisodeAux] at h
  | fuel + 1, st, obs, st2, h, hm => by
    simp only [runEpisodeAux] at h
    split at h
    · cases h
      exact lockStep_processTransition hp st.mem st.queue _ hm
    · exact runEpisodeAux_lockstep hp E npStream spStream policy fuel _ _ st2 h
        (lockStep_processTransition hp st.mem st.queue _ hm)

theorem collectAux_lockstep (hp : HyperParams) (E : Env) (npStream : ℕ → ℚ)
    (spStream : ℕ → ℤ) (policy : ℤ → ℤ) (stepFuel : ℕ) :
    ∀ (epFuel : ℕ) (st : LoopState) (m : LocalMemory),
      collectAux hp E npStream spStream policy stepFuel epFuel st = some m →
      LockStep st.mem → LockStep m
  | 0, st, m, h, _ => by simp [collectAux] at h
  | epFuel + 1, st, m, h, hm => by
    simp only [collectAux] at h
    split at h
    · cases h; exact hm
    · revert h
      split
      · intro h; cases h
      · rename_i st2 heq
        intro h
        exact collectAux_lockstep hp E npStream spStream policy stepFuel epFuel st2 m h
          (runEpisodeAux_lockstep hp E npStream spStream policy stepFuel _ _ st2 heq hm)

/-- C2: the five Local Buffer field sequences stay in lock-step at every
point of a `collect_data` run — the per-transition update preserves the
invariant, the episode loop preserves it from any intermediate state on,
and each accepted transition (raw when `n_step = 1`, folded when
`n_step > 1` and the window is full after the push) grows all five fields
by exactly one entry, while a non-accepted transition leaves the buffer
unchanged. -/
theorem localBuffer_lockstep (hp : HyperParams) (mem : LocalMemory)
    (q : List Transition) (t : Transition) (h : LockStep mem) :
    LockStep (processTransition hp mem q t).1
    ∧ (hp.n_step ≤ 1 → GrowsByOne mem (processTransition hp mem q t).1)
    ∧ (1 < hp.n_step → hp.n_step = (dequeAppend hp.n_step q t).length →
        GrowsByOne mem (processTransition hp mem q t).1)
    ∧ (1 < hp.n_step → hp.n_step ≠ (dequeAppend hp.n_step q t).length →
        (processTransition hp mem q t).1 = mem)
    ∧ (∀ (E : Env) (npStream : ℕ → ℚ) (spStream : ℕ → ℤ) (policy : ℤ → ℤ)
        (fuel : ℕ) (st : LoopState) (obs : ℤ) (st2 : LoopState),
        runEpisodeAux hp E npStream spStream policy fuel st obs = some st2 →
        LockStep st.mem → LockStep st2.mem) := by
  refine ⟨lockStep_processTransition hp mem q t h, ?_, ?_, ?_, ?_⟩
  · intro h1
    unfold processTransition
    rw [if_neg (by omega)]
    exact appendTransition_growsByOne mem t
  · intro h1 h2
    unfold processTransition
    rw [if_pos h1, if_pos h2]
    exact appendTransition_growsByOne mem _
  · intro h1 h2
    unfold processTransition
    rw [if_pos h1, if_neg h2]
  · exact fun E npStream spStream policy fuel st obs st2 =>
      runEpisodeAux_lockstep hp E npStream spStream policy fuel st obs st2

/-- Witness for C2 at a concrete buffer, window and transition. -/
theorem localBuffer_lockstep_witness :
    LockStep (⟨[4], [1], [1], [5], [0]⟩ : LocalMemory) ∧
    (LockStep (processTransition hp100 ⟨[4], [1], [1], [5], [0]⟩ [] ⟨5, 1, 1, 6, true⟩).1
      ∧ (hp100.n_step ≤ 1 →
          GrowsByOne ⟨[4], [1], [1], [5], [0]⟩
            (processTransition hp100 ⟨[4], [1], [1], [5], [0]⟩ [] ⟨5, 1, 1, 6, true⟩).1)
      ∧ (1 < hp100.n_step →
          hp100.n_step = (dequeAppend hp100.n_step [] ⟨5, 1, 1, 6, true⟩).length →
          GrowsByOne ⟨[4], [1], [1], [5], [0]⟩
            (processTransition hp100 ⟨[4], [1], [1], [5], [0]⟩ [] ⟨5, 1, 1, 6, true⟩).1)
      ∧ (1 < hp100.n_step →
          hp100.n_step ≠ (dequeAppend hp100.n_step [] ⟨5, 1, 1, 6, true⟩).length →
          (processTransition hp100 ⟨[4], [1], [1], [5], [0]⟩ [] ⟨5, 1, 1, 6, true⟩).1
            = ⟨[4], [1], [1], [5], [0]⟩)
      ∧ (∀ (E : Env) (npStream : ℕ → ℚ) (spStream : ℕ → ℤ) (policy : ℤ → ℤ)
          (fuel : ℕ) (st : LoopState) (obs : ℤ) (st2 : LoopState),
          runEpisodeAux hp100 E npStream spStream policy fuel st obs = some st2 →
          LockStep st.mem → LockStep st2.mem)) :=
  ⟨by decide,
   localBuffer_lockstep hp100 ⟨[4], [1], [1], [5], [0]⟩ [] ⟨5, 1, 1, 6, true⟩ (by decide)⟩

/-! ## N-step fold -/

theorem nstepReward_eq_sum (gamma : ℚ) : ∀ q : List Transition,
    nstepReward gamma q
      = ∑ i ∈ Finset.range q.length, gamma ^ i * (q.getD i default).reward
  | [] => by simp [nstepReward]
  | t :: rest => by
    rw [nstepReward, nstepReward_eq_sum gamma rest, List.length_cons,
      Finset.sum_range_succ', Finset.mul_sum]
    simp only [List.getD_cons_succ, List.getD_cons_zero, pow_zero, one_mul]
    rw [add_comm]
    congr 1
    exact Finset.sum_congr rfl fun i _ => by ring

theorem getLast?_getD_eq_getD : ∀ q : List Transition,
    q.getLast?.getD default = q.getD (q.length - 1) default
  | [] => rfl
  | [_] => rfl
  | a :: b :: rest => by
    rw [List.getLast?_cons_cons, getLast?_getD_eq_getD (b :: rest)]
    simp

/-- C3: folding a window of exactly `N` transitions yields the discounted
reward sum `Σ γ^i * r_i` over the window, the `next_state` of the last
window member, and the OR of all window members' `done` flags. -/
theorem preprocess_nstep_spec (gamma : ℚ) (q : List Transition) (N : ℕ)
    (hq : q.length = N) :
    (preprocess_nstep gamma q).reward
        = ∑ i ∈ Finset.range N, gamma ^ i * (q.getD i default).reward
    ∧ (preprocess_nstep gamma q).next_state = (q.getD (N - 1) default).next_state
    ∧ ((preprocess_nstep gamma q).done = true ↔ ∃ t ∈ q, t.done = true) := by
  subst hq
  refine ⟨nstepReward_eq_sum gamma q, ?_, ?_⟩
  · show (q.getLast?.getD default).next_state = _
    rw [getLast?_getD_eq_getD q]
  · exact List.any_eq_true

/-- Witness for C3 on a concrete three-element window. -/
theorem preprocess_nstep_spec_witness :
    ([(⟨0, 0, 1, 1, false⟩ : Transition), ⟨1, 0, 2, 2, true⟩,
        ⟨2, 0, 4, 3, false⟩].length = 3) ∧
    ((preprocess_nstep 2 [(⟨0, 0, 1, 1, false⟩ : Transition), ⟨1, 0, 2, 2, true⟩,
        ⟨2, 0, 4, 3, false⟩]).reward
      = ∑ i ∈ Finset.range 3,
          2 ^ i * (([(⟨0, 0, 1, 1, false⟩ : Transition), ⟨1, 0, 2, 2, true⟩,
            ⟨2, 0, 4, 3, false⟩].getD i default).reward)
    ∧ (preprocess_nstep 2 [(⟨0, 0, 1, 1, false⟩ : Transition), ⟨1, 0, 2, 2, true⟩,
        ⟨2, 0, 4, 3, false⟩]).next_state
      = (([(⟨0, 0, 1, 1, false⟩ : Transition), ⟨1, 0, 2, 2, true⟩,
          ⟨2, 0, 4, 3, false⟩].getD (3 - 1) default)).next_state
    ∧ ((preprocess_nstep 2 [(⟨0, 0, 1, 1, false⟩ : Transition), ⟨1, 0, 2, 2, true⟩,
        ⟨2, 0, 4, 3, false⟩]).done = true
        ↔ ∃ t ∈ [(⟨0, 0, 1, 1, false⟩ : Transition), ⟨1, 0, 2, 2, true⟩,
            ⟨2, 0, 4, 3, false⟩], t.done = true)) :=
  ⟨by decide,
   preprocess_nstep_spec 2 [⟨0, 0, 1, 1, false⟩, ⟨1, 0, 2, 2, true⟩,
     ⟨2, 0, 4, 3, false⟩] 3 (by decide)⟩

/-! ## Sliding window -/

theorem dequeAppend_full (n : ℕ) (q : List Transition) (t : Transition)
    (hn : 0 < n) (hq : q.length = n) :
    dequeAppend n q t = q.drop 1 ++ [t] := by
  unfold dequeAppend
  rw [hq]
  have h1 : n + 1 - n = 1 := by omega
  rw [h1, List.drop_append_of_le_length (by omega)]

/-- C4: with `n_step > 1` and the window already full (length `n_step`),
processing one more transition slides the window — the result is the old
window minus its oldest element plus the new transition, still of length
`n_step` (never cleared) — and appends exactly one folded entry to every
Local Buffer field. -/
theorem nstep_window_sliding (hp : HyperParams) (mem : LocalMemory)
    (q : List Transition) (t : Transition) (hN : 1 < hp.n_step)
    (hq : q.length = hp.n_step) :
    (processTransition hp mem q t).2 = q.drop 1 ++ [t]
    ∧ (processTransition hp mem q t).2.length = hp.n_step
    ∧ GrowsByOne mem (processTransition hp mem q t).1 := by
  have hfull : dequeAppend hp.n_step q t = q.drop 1 ++ [t] :=
    dequeAppend_full hp.n_step q t (by omega) hq
  have hlen : (dequeAppend hp.n_step q t).length = hp.n_step := by
    rw [hfull]
    simp only [List.length_append, List.length_drop, List.length_cons,
      List.length_nil]
    omega
  unfold processTransition
  rw [if_pos hN, if_pos hlen.symm]
  exact ⟨hfull, hlen, appendTransition_growsByOne mem _⟩

/-- Witness for C4 on a concrete full window of size 3. -/
theorem nstep_window_sliding_witness :
    ((1 : ℕ) < hpC10.n_step ∧
      ([(⟨0, 0, 1, 1, false⟩ : Transition), ⟨1, 0, 1, 2, false⟩,
        ⟨2, 0, 1, 3, false⟩] : List Transition).length = hpC10.n_step) ∧
    ((processTransition hpC10 LocalMemory.empty
        [⟨0, 0, 1, 1, false⟩, ⟨1, 0, 1, 2, false⟩, ⟨2, 0, 1, 3, false⟩]
        ⟨3, 0, 1, 4, true⟩).2
      = ([⟨0, 0, 1, 1, false⟩, ⟨1, 0, 1, 2, false⟩,
          ⟨2, 0, 1, 3, false⟩] : List Transition).drop 1 ++ [⟨3, 0, 1, 4, true⟩]
    ∧ (processTransition hpC10 LocalMemory.empty
        [⟨0, 0, 1, 1, false⟩, ⟨1, 0, 1, 2, false⟩, ⟨2, 0, 1, 3, false⟩]
        ⟨3, 0, 1, 4, true⟩).2.length = hpC10.n_step
    ∧ GrowsByOne LocalMemory.empty
        (processTransition hpC10 LocalMemory.empty
          [⟨0, 0, 1, 1, false⟩, ⟨1, 0, 1, 2, false⟩, ⟨2, 0, 1, 3, false⟩]
          ⟨3, 0, 1, 4, true⟩).1) :=
  ⟨⟨by decide, by decide⟩,
   nstep_window_sliding hpC10 LocalMemory.empty
     [⟨0, 0, 1, 1, false⟩, ⟨1, 0, 1, 2, false⟩, ⟨2, 0, 1, 3, false⟩]
     ⟨3, 0, 1, 4, true⟩ (by decide) (by decide)⟩

/-! ## Collection threshold -/

theorem collectAux_length_ge (hp : HyperParams) (E : Env) (npStream : ℕ → ℚ)
    (spStream : ℕ → ℤ) (policy : ℤ → ℤ) (stepFuel : ℕ) :
    ∀ (epFuel : ℕ) (st : LoopState) (m : LocalMemory),
      collectAux hp E npStream spStream policy stepFuel epFuel st = some m →
      hp.local_buffer_max_size ≤ m.states.length
  | 0, st, m, h => by simp [collectAux] at h
  | epFuel + 1, st, m, h => by
    simp only [collectAux] at h
    split at h
    · cases h
      assumption
    · revert h
      split
      · intro h; cases h
      · rename_i st2 _
        intro h
        exact collectAux_length_ge hp E npStream spStream policy stepFuel epFuel st2 m h

/-- C5 (amended): whenever `collect_data` returns a buffer, the buffer
holds AT LEAST `local_buffer_max_size` entries in every field (all fields
lock-stepped) — not exactly that many: the threshold is only checked at
episode boundaries, so the final episode's overshoot is kept. -/
theorem collect_data_at_least_threshold (hp : HyperParams) (E : Env)
    (npStream : ℕ → ℚ) (spStream : ℕ → ℤ) (policy : ℤ → ℤ) (w0 : WorkerState)
    (envState0 : ℤ) (stepFuel epFuel : ℕ) (m : LocalMemory)
    (h : collect_data hp E npStream spStream policy w0 envState0 stepFuel epFuel
      = some m) :
    hp.local_buffer_max_size ≤ m.states.length ∧ LockStep m :=
  ⟨collectAux_length_ge hp E npStream spStream policy stepFuel epFuel _ m h,
   collectAux_lockstep hp E npStream spStream policy stepFuel epFuel _ m h
     lockStep_empty⟩

/-- Witness for C5 (amended) on a concrete one-step environment. -/
theorem collect_data_at_least_threshold_witness :
    (collect_data hpC9 envC9 (fun _ => 0) (fun _ => 7) (fun _ => 3) ⟨1, 0, 0⟩ 0 3 3
      = some ⟨[0], [7], [1], [1], [1]⟩) ∧
    (hpC9.local_buffer_max_size
        ≤ (⟨[0], [7], [1], [1], [1]⟩ : LocalMemory).states.length
      ∧ LockStep (⟨[0], [7], [1], [1], [1]⟩ : LocalMemory)) :=
  ⟨by decide,
   collect_data_at_least_threshold hpC9 envC9 (fun _ => 0) (fun _ => 7) (fun _ => 3)
     ⟨1, 0, 0⟩ 0 3 3 ⟨[0], [7], [1], [1], [1]⟩ (by decide)⟩

/-- C5 counterexample: with `local_buffer_max_size = 100` and an
environment whose episodes last three steps, `collect_data` returns 102
entries per field, not exactly 100 — the final episode overshoots the
threshold and is kept whole. -/
theorem collect_data_exact_threshold_counterexample :
    hp100.local_buffer_max_size = 100 ∧
    (collect_data hp100 demoEnv (fun _ => 1) (fun _ => 0) (fun _ => 0)
        ⟨0, 0, 0⟩ 0 5 40).map (fun m => m.states.length) = some 102 :=
  ⟨rfl, by decide⟩

/-! ## Priorities -/

theorem getD_map_add (c : ℚ) : ∀ (l : List ℚ) (i : ℕ), i < l.length →
    (l.map (fun x => x + c)).getD i 0 = l.getD i 0 + c
  | [], i, h => by simp at h
  | x :: xs, 0, _ => rfl
  | x :: xs, i + 1, h => by
    simp only [List.map_cons, List.getD_cons_succ]
    exact getD_map_add c xs i (by simpa using h)

/-- C6: the priority at every index `i` equals `element_wise_loss[i] +
per_eps`, the priority vector has one entry per loss entry, and with
`per_eps > 0` and a non-negative loss element the priority is strictly
positive even when the loss element is zero. -/
theorem compute_priorities_spec (lossFn : LocalMemory → List ℚ) (per_eps : ℚ)
    (mem : LocalMemory) (i : ℕ) (hi : i < (lossFn mem).length) :
    (compute_priorities lossFn per_eps mem).length = (lossFn mem).length
    ∧ (compute_priorities lossFn per_eps mem).getD i 0
        = (lossFn mem).getD i 0 + per_eps
    ∧ (0 < per_eps → 0 ≤ (lossFn mem).getD i 0 →
        0 < (compute_priorities lossFn per_eps mem).getD i 0) := by
  have hmap : (compute_priorities lossFn per_eps mem).getD i 0
      = (lossFn mem).getD i 0 + per_eps := getD_map_add per_eps (lossFn mem) i hi
  refine ⟨by simp [compute_priorities], hmap, fun hpos hnn => ?_⟩
  rw [hmap]
  linarith

/-- Witness for C6 with a loss vector containing a zero element. -/
theorem compute_priorities_spec_witness :
    ((0 : ℕ) < ((fun _ : LocalMemory => [(0 : ℚ), 2]) LocalMemory.empty).length) ∧
    ((compute_priorities (fun _ => [(0 : ℚ), 2]) 1 LocalMemory.empty).length
        = ((fun _ : LocalMemory => [(0 : ℚ), 2]) LocalMemory.empty).length
      ∧ (compute_priorities (fun _ => [(0 : ℚ), 2]) 1 LocalMemory.empty).getD 0 0
          = ((fun _ : LocalMemory => [(0 : ℚ), 2]) LocalMemory.empty).getD 0 0 + 1
      ∧ ((0 : ℚ) < 1 →
          0 ≤ ((fun _ : LocalMemory => [(0 : ℚ), 2]) LocalMemory.empty).getD 0 0 →
          0 < (compute_priorities (fun _ => [(0 : ℚ), 2]) 1 LocalMemory.empty).getD 0 0)) :=
  ⟨by decide,
   compute_priorities_spec (fun _ => [(0 : ℚ), 2]) 1 LocalMemory.empty 0 (by decide)⟩

/-! ## Parameter synchronization -/

theorem synchronize_nil_left (new_params : List (List ℚ)) :
    _synchronize [] new_params = [] := by
  simp [_synchronize]

theorem synchronize_nil_right (params : List ParamTensor) :
    _synchronize params [] = params := by
  simp [_synchronize]

theorem synchronize_cons (p : ParamTensor) (ps : List ParamTensor)
    (n : List ℚ) (ns : List (List ℚ)) :
    _synchronize (p :: ps) (n :: ns) = ⟨p.id, n⟩ :: _synchronize ps ns := by
  simp [_synchronize]

theorem synchronize_length : ∀ (params : List ParamTensor) (new_params : List (List ℚ)),
    (_synchronize params new_params).length = params.length
  | [], ns => by rw [synchronize_nil_left]
  | p :: ps, [] => by rw [synchronize_nil_right]
  | p :: ps, n :: ns => by
    rw [synchronize_cons]
    simp only [List.length_cons]
    rw [synchronize_length ps ns]

theorem synchronize_getD_lt : ∀ (params : List ParamTensor) (new_params : List (List ℚ))
    (i : ℕ), i < params.length → i < new_params.length →
      (_synchronize params new_params).getD i default
        = ⟨(params.getD i default).id, new_params.getD i []⟩
  | [], _, i, hi, _ => by simp at hi
  | _ :: _, [], i, _, hj => by simp at hj
  | p :: ps, n :: ns, 0, _, _ => by rw [synchronize_cons]; rfl
  | p :: ps, n :: ns, i + 1, hi, hj => by
    rw [synchronize_cons]
    simp only [List.getD_cons_succ]
    exact synchronize_getD_lt ps ns i (by simpa using hi) (by simpa using hj)

theorem synchronize_getD_ge : ∀ (params : List ParamTensor) (new_params : List (List ℚ))
    (i : ℕ), new_params.length ≤ i →
      (_synchronize params new_params).getD i default = params.getD i default
  | [], ns, i, _ => by rw [synchronize_nil_left]
  | p :: ps, [], i, _ => by rw [synchronize_nil_right]
  | p :: ps, n :: ns, 0, hj => by simp at hj
  | p :: ps, n :: ns, i + 1, hj => by
    rw [synchronize_cons]
    simp only [List.getD_cons_succ]
    exact synchronize_getD_ge ps ns i (by simpa using hj)

/-- C7: after `_synchronize` with a parameter list of matching length,
every parameter tensor holds the content of the corresponding new
parameter (pairwise, in enumeration order), its object identity is
unchanged (content copied in place), and the parameter count is
preserved — so a previously held reference observes the new values. -/
theorem synchronize_inplace (params : List ParamTensor) (new_params : List (List ℚ))
    (hlen : new_params.length = params.length) (i : ℕ) (hi : i < params.length) :
    (_synchronize params new_params).length = params.length
    ∧ ((_synchronize params new_params).getD i default).data = new_params.getD i []
    ∧ ((_synchronize params new_params).getD i default).id
        = (params.getD i default).id := by
  have h := synchronize_getD_lt params new_params i hi (by omega)
  exact ⟨synchronize_length params new_params, by rw [h], by rw [h]⟩

/-- Witness for C7 on a two-tensor network. -/
theorem synchronize_inplace_witness :
    (([[5], [6, 7]] : List (List ℚ)).length
        = ([⟨10, [1]⟩, ⟨11, [2, 3]⟩] : List ParamTensor).length
      ∧ (1 : ℕ) < ([⟨10, [1]⟩, ⟨11, [2, 3]⟩] : List ParamTensor).length) ∧
    ((_synchronize [⟨10, [1]⟩, ⟨11, [2, 3]⟩] [[5], [6, 7]]).length
        = ([⟨10, [1]⟩, ⟨11, [2, 3]⟩] : List ParamTensor).length
      ∧ ((_synchronize [⟨10, [1]⟩, ⟨11, [2, 3]⟩] [[5], [6, 7]]).getD 1 default).data
          = ([[5], [6, 7]] : List (List ℚ)).getD 1 []
      ∧ ((_synchronize [⟨10, [1]⟩, ⟨11, [2, 3]⟩] [[5], [6, 7]]).getD 1 default).id
          = (([⟨10, [1]⟩, ⟨11, [2, 3]⟩] : List ParamTensor).getD 1 default).id) :=
  ⟨⟨by decide, by decide⟩,
   synchronize_inplace [⟨10, [1]⟩, ⟨11, [2, 3]⟩] [[5], [6, 7]] (by decide) 1 (by decide)⟩

/-- C8 counterexample: `_synchronize` given one new parameter for a
two-tensor network completes silently — the zipped loop truncates at the
shorter sequence, the first tensor takes the new content, and the second
keeps its old content; no failure is raised at first use. -/
theorem synchronize_mismatch_counterexample :
    (([[5]] : List (List ℚ)).length
        ≠ ([⟨0, [1]⟩, ⟨1, [2]⟩] : List ParamTensor).length) ∧
    _synchronize [⟨0, [1]⟩, ⟨1, [2]⟩] [[5]] = [⟨0, [5]⟩, ⟨1, [2]⟩] :=
  ⟨by decide, by decide⟩

/-- C8 (amended): a mismatched parameter count is not detected —
`_synchronize` completes, updating only the zipped prefix and leaving
every parameter at an index at or beyond `new_params.length` untouched,
while preserving the parameter count. -/
theorem synchronize_mismatch_silent (params : List ParamTensor)
    (new_params : List (List ℚ)) (i : ℕ) (hge : new_params.length ≤ i)
    (hlt : i < params.length) :
    (_synchronize params new_params).length = params.length
    ∧ (_synchronize params new_params).getD i default = params.getD i default :=
  ⟨synchronize_length params new_params, synchronize_getD_ge params new_params i hge⟩

/-- Witness for C8 (amended) on a concrete mismatched call. -/
theorem synchronize_mismatch_silent_witness :
    (([[5]] : List (List ℚ)).length ≤ 1
      ∧ (1 : ℕ) < ([⟨0, [1]⟩, ⟨1, [2]⟩] : List ParamTensor).length) ∧
    ((_synchronize [⟨0, [1]⟩, ⟨1, [2]⟩] [[5]]).length
        = ([⟨0, [1]⟩, ⟨1, [2]⟩] : List ParamTensor).length
      ∧ (_synchronize [⟨0, [1]⟩, ⟨1, [2]⟩] [[5]]).getD 1 default
          = ([⟨0, [1]⟩, ⟨1, [2]⟩] : List ParamTensor).getD 1 default) :=
  ⟨⟨by decide, by decide⟩,
   synchronize_mismatch_silent [⟨0, [1]⟩, ⟨1, [2]⟩] [[5]] 1 (by decide) (by decide)⟩

/-! ## Determinism across runs -/

/-- C9 counterexample: two `collect_data` runs with the same rank-derived
inputs (same hyper-parameters, same seeded environment, same initial
epsilon `max_epsilon = 1`, same policy parameters, no synchronize) but
different states of the unseeded global action-sampler stream
(`env.action_space.sample()` — equally, `np.random.random()` — is never
seeded from `rank`) produce different Local Buffers: the explored action
recorded in the buffer differs. -/
theorem collect_data_rank_determinism_counterexample :
    collect_data hpC9 envC9 (fun _ => 0) (fun _ => 7) (fun _ => 3) ⟨1, 0, 0⟩ 0 3 3
      ≠ collect_data hpC9 envC9 (fun _ => 0) (fun _ => 8) (fun _ => 3) ⟨1, 0, 0⟩ 0 3 3 := by
  decide

/-- C9 (amended): `collect_data` is deterministic in the full set of its
inputs — rank-derived state (hyper-parameters, initial worker state,
seeded environment), policy parameters, AND the two global random streams:
two runs whose streams agree pointwise return identical Local Buffers.
The streams are not derived from `rank`, so rank alone does not determine
the buffer. -/
theorem collect_data_deterministic_given_streams (hp : HyperParams) (E : Env)
    (np1 np2 : ℕ → ℚ) (sp1 sp2 : ℕ → ℤ) (policy : ℤ → ℤ) (w0 : WorkerState)
    (envState0 : ℤ) (stepFuel epFuel : ℕ)
    (hnp : ∀ k, np1 k = np2 k) (hsp : ∀ k, sp1 k = sp2 k) :
    collect_data hp E np1 sp1 policy w0 envState0 stepFuel epFuel
      = collect_data hp E np2 sp2 policy w0 envState0 stepFuel epFuel := by
  rw [funext hnp, funext hsp]

/-- Witness for C9 (amended) with two definitionally distinct but
pointwise equal streams. -/
theorem collect_data_deterministic_given_streams_witness :
    ((∀ k : ℕ, (fun _ => (0 : ℚ)) k = (fun n => (0 : ℚ) * n) k)
      ∧ (∀ k : ℕ, (fun _ => (7 : ℤ)) k = (fun _ => (7 : ℤ)) k)) ∧
    collect_data hpC9 envC9 (fun _ => 0) (fun _ => 7) (fun _ => 3) ⟨1, 0, 0⟩ 0 3 3
      = collect_data hpC9 envC9 (fun n => (0 : ℚ) * n) (fun _ => 7) (fun _ => 3)
          ⟨1, 0, 0⟩ 0 3 3 :=
  ⟨⟨fun k => by simp, fun k => rfl⟩,
   collect_data_deterministic_given_streams hpC9 envC9 _ _ _ _ _ ⟨1, 0, 0⟩ 0 3 3
     (fun k => by simp) (fun k => rfl)⟩

/-! ## Cross-episode n-step window -/

theorem processList_below_window (hp : HyperParams) (hN : 1 < hp.n_step) :
    ∀ (ts : List Transition) (mem : LocalMemory) (q : List Transition),
      q.length + ts.length < hp.n_step →
      processList hp (mem, q) ts = (mem, q ++ ts)
  | [], mem, q, _ => by simp [processList]
  | t :: ts, mem, q, hlen => by
    have hq2 : dequeAppend hp.n_step q t = q ++ [t] := by
      unfold dequeAppend
      have : q.length + 1 - hp.n_step = 0 := by simp at hlen; omega
      rw [this, List.drop_zero]
    have hne : hp.n_step ≠ (dequeAppend hp.n_step q t).length := by
      rw [hq2]
      simp only [List.length_append, List.length_cons, List.length_nil]
      simp at hlen
      omega
    rw [processList, processTransition, if_pos hN, if_neg hne, hq2,
      processList_below_window hp hN ts mem (q ++ [t])
        (by simp at hlen ⊢; omega)]
    simp

/-- C10: within one `collect_data` call with `n_step > 1` the window is
created once and never cleared at episode boundaries: (i) the first
`n_step - 1` transitions of the run produce no Local Buffer entries (the
aggregator, started from an empty window, emits nothing until the window
first fills), and (ii) on a concrete two-step-episode environment with
`n_step = 3` the first folded buffer entry combines both episodes — its
`state` (100) is the first observation of episode 1 while its
`next_state` (201) lies in episode 2, and its `done` flag (1) comes from
episode 1's terminal step carried across the reset. -/
theorem nstep_window_crosses_episodes (hp : HyperParams) (ts : List Transition)
    (hN : 1 < hp.n_step) (hlen : ts.length < hp.n_step) :
    (processList hp (LocalMemory.empty, []) ts).1 = LocalMemory.empty
    ∧ (collect_data hpC10 envC10 (fun _ => 1) (fun _ => 0) (fun _ => 5)
        ⟨0, 0, 0⟩ 0 5 5).map
        (fun m => (m.states, m.next_states, m.dones))
        = some ([100, 101], [201, 202], [1, 1]) := by
  constructor
  · rw [processList_below_window hp hN ts LocalMemory.empty [] (by simpa using hlen)]
  · decide

/-- Witness for C10 on a two-transition stream below the window size. -/
theorem nstep_window_crosses_episodes_witness :
    ((1 : ℕ) < hpC10.n_step
      ∧ ([(⟨0, 0, 1, 1, false⟩ : Transition), ⟨1, 0, 1, 2, true⟩] : List Transition).length
          < hpC10.n_step) ∧
    ((processList hpC10 (LocalMemory.empty, [])
        [⟨0, 0, 1, 1, false⟩, ⟨1, 0, 1, 2, true⟩]).1 = LocalMemory.empty
      ∧ (collect_data hpC10 envC10 (fun _ => 1) (fun _ => 0) (fun _ => 5)
          ⟨0, 0, 0⟩ 0 5 5).map
          (fun m => (m.states, m.next_states, m.dones))
          = some ([100, 101], [201, 202], [1, 1])) :=
  ⟨⟨by decide, by decide⟩,
   nstep_window_crosses_episodes hpC10 [⟨0, 0, 1, 1, false⟩, ⟨1, 0, 1, 2, true⟩]
     (by decide) (by decide)⟩

end RLAlgorithms
